import Mathlib

/-!
Shallow embedding of the real-time voice pipeline: the PCM16 sample codec,
the playback scheduler and session controller of
src/services/gemini-live.ts, and the connection-status handling of
src/App.tsx.  Samples are rationals, clock times are rationals, and the
nullable JS handles of the client object are booleans (true = non-null).
-/

namespace GeminiLive

/-! ## Sample codec

src/services/gemini-live.ts imports createPcmBlob, base64ToBytes and
decodeAudioData from src/utils/audio-utils.ts, a file of this repository
that is not present under src/.  The codec below is therefore modelled
from the spec (section 4.1).  The base64 transport layer is abstracted
away: messages carry raw byte lists directly.
-/

/-- Modelled from the spec: clamping of an input float to [-1, 1]
(spec 4.1: each float is clamped to [-1,1]). -/
def clamp (x : ℚ) : ℚ := max (-1) (min 1 x)

/-- Modelled from the spec: quantization of one clamped float to the signed
16-bit range (spec 4.1: scaled to the signed 16-bit range). -/
def quantize (x : ℚ) : ℤ := max (-32768) (min 32767 ⌊clamp x * 32768⌋)

/-- Modelled from the spec: the two's-complement little-endian byte pair of a
16-bit integer (spec 4.1: written little-endian). -/
def int16ToBytes (q : ℤ) : List ℕ :=
  [(q % 65536).toNat % 256, (q % 65536).toNat / 256]

/-- Modelled from the spec: createPcmBlob of the missing audio-utils.ts
(spec 4.1 encode): clamp, scale to int16, write each sample little-endian. -/
def createPcmBlob (samples : List ℚ) : List ℕ :=
  samples.flatMap (fun x => int16ToBytes (quantize x))

/-- Modelled from the spec: reconstruction of a signed 16-bit value from a
little-endian byte pair. -/
def bytesToInt16 (lo hi : ℕ) : ℤ :=
  if lo % 256 + 256 * (hi % 256) < 32768 then
    ((lo % 256 + 256 * (hi % 256) : ℕ) : ℤ)
  else
    ((lo % 256 + 256 * (hi % 256) : ℕ) : ℤ) - 65536

/-- Modelled from the spec: the sample list decoded from a PCM16 byte list
(spec 4.1 decode: each sample reconstructed as int16 / 32768). -/
def decodeSamples : List ℕ → List ℚ
  | [] => []
  | [_] => []
  | lo :: hi :: rest => ((bytesToInt16 lo hi : ℤ) : ℚ) / 32768 :: decodeSamples rest

/-- A decoded playback buffer: samples plus the sample rate used to derive
its duration. -/
structure Buffer where
  samples : List ℚ
  sampleRate : ℕ
deriving DecidableEq

/-- Duration in seconds of a decoded buffer. -/
def Buffer.duration (b : Buffer) : ℚ := (b.samples.length : ℚ) / (b.sampleRate : ℚ)

/-- Modelled from the spec: decodeAudioData of the missing audio-utils.ts
(spec 4.1 decode): byte length must be even, failing with
MalformedAudioError if not; produces sample count length / 2. -/
def decodeAudioData (bytes : List ℕ) (sampleRate : ℕ) (_channels : ℕ) :
    Except String Buffer :=
  if bytes.length % 2 ≠ 0 then Except.error "MalformedAudioError"
  else Except.ok { samples := decodeSamples bytes, sampleRate := sampleRate }

lemma quantize_bounds (x : ℚ) : -32768 ≤ quantize x ∧ quantize x ≤ 32767 := by
  unfold quantize
  exact ⟨le_max_left _ _, max_le (by norm_num) (min_le_left _ _)⟩

lemma clamp_eq_self {x : ℚ} (h1 : -1 ≤ x) (h2 : x ≤ 1) : clamp x = x := by
  unfold clamp
  rw [min_eq_right h2, max_eq_right h1]

lemma quantize_close (x : ℚ) (h1 : -1 ≤ x) (h2 : x ≤ 1) :
    |((quantize x : ℤ) : ℚ) / 32768 - x| ≤ 1 / 32768 := by
  unfold quantize
  rw [clamp_eq_self h1 h2]
  have h32 : (0 : ℚ) < 32768 := by norm_num
  have hfl : ((⌊x * 32768⌋ : ℤ) : ℚ) ≤ x * 32768 := Int.floor_le _
  have hfl2 : x * 32768 < (⌊x * 32768⌋ : ℤ) + 1 := Int.lt_floor_add_one _
  by_cases hcase : ⌊x * 32768⌋ ≤ 32767
  · have hlb : (-32768 : ℤ) ≤ ⌊x * 32768⌋ := by
      apply Int.le_floor.mpr
      push_cast
      nlinarith
    rw [min_eq_right hcase, max_eq_right hlb]
    have key : |((⌊x * 32768⌋ : ℤ) : ℚ) - x * 32768| ≤ 1 := by
      rw [abs_le]
      constructor <;> linarith
    have hrw : ((⌊x * 32768⌋ : ℤ) : ℚ) / 32768 - x
        = (((⌊x * 32768⌋ : ℤ) : ℚ) - x * 32768) / 32768 := by ring
    rw [hrw, abs_div, abs_of_pos h32]
    rw [div_le_div_iff₀ h32 h32]
    nlinarith [abs_nonneg (((⌊x * 32768⌋ : ℤ) : ℚ) - x * 32768)]
  · have hx1 : (1 : ℚ) ≤ x := by
      have h328 : (32768 : ℚ) ≤ ((⌊x * 32768⌋ : ℤ) : ℚ) := by
        exact_mod_cast Int.lt_iff_add_one_le.mp (lt_of_not_le hcase)
      nlinarith
    have hxeq : x = 1 := le_antisymm h2 hx1
    subst hxeq
    have hmin : min (32767 : ℤ) ⌊(1 : ℚ) * 32768⌋ = 32767 := by
      apply min_eq_left
      omega
    rw [hmin, max_eq_right (by norm_num : (-32768 : ℤ) ≤ 32767)]
    rw [abs_le]
    constructor <;> norm_num

lemma bytes_roundtrip (q : ℤ) (h1 : -32768 ≤ q) (h2 : q ≤ 32767) :
    bytesToInt16 ((q % 65536).toNat % 256) ((q % 65536).toNat / 256) = q := by
  unfold bytesToInt16
  split <;> omega

lemma decodeSamples_encode_cons (q : ℤ) (h1 : -32768 ≤ q) (h2 : q ≤ 32767)
    (rest : List ℕ) :
    decodeSamples (int16ToBytes q ++ rest)
      = ((q : ℤ) : ℚ) / 32768 :: decodeSamples rest := by
  unfold int16ToBytes
  simp only [List.cons_append, List.nil_append, decodeSamples]
  rw [bytes_roundtrip q h1 h2]
  rfl

lemma createPcmBlob_length (s : List ℚ) :
    (createPcmBlob s).length = 2 * s.length := by
  induction s with
  | nil => rfl
  | cons x xs ih =>
    simp only [createPcmBlob, List.flatMap_cons, List.length_append,
      int16ToBytes, List.length_cons, List.length_nil] at *
    omega

lemma decode_createPcmBlob (s : List ℚ) :
    decodeSamples (createPcmBlob s)
      = s.map (fun x => ((quantize x : ℤ) : ℚ) / 32768) := by
  induction s with
  | nil => rfl
  | cons x xs ih =>
    simp only [createPcmBlob, List.flatMap_cons, List.map_cons] at *
    rw [decodeSamples_encode_cons (quantize x) (quantize_bounds x).1
      (quantize_bounds x).2, ih]

lemma forall2_quantize (s : List ℚ) (h : ∀ x ∈ s, -1 ≤ x ∧ x ≤ 1) :
    List.Forall₂ (fun y x => |y - x| ≤ 1 / 32768)
      (s.map fun x => ((quantize x : ℤ) : ℚ) / 32768) s := by
  induction s with
  | nil => exact List.Forall₂.nil
  | cons a l ih =>
    simp only [List.map_cons]
    refine List.Forall₂.cons ?_ (ih fun x hx => h x (List.mem_cons_of_mem _ hx))
    have ha := h a (List.mem_cons_self a l)
    exact quantize_close a ha.1 ha.2

/-! ## Playback scheduler and session controller state

Embedding of the mutable fields of class GeminiLiveClient
(src/services/gemini-live.ts lines 5-21).  Nullable handles become
booleans (true = handle is non-null); the output clock currentTime is
passed explicitly to each operation.
-/

/-- A scheduled playback source (an AudioBufferSourceNode): its buffer, the
start time passed to source.start, and whether stop was already called. -/
structure Source where
  id : ℕ
  buffer : Buffer
  startTime : ℚ
  stopped : Bool
deriving DecidableEq

/-- The mutable fields of GeminiLiveClient (gemini-live.ts lines 6-21). -/
structure ClientState where
  inputCtx : Bool
  outputCtx : Bool
  outputGain : Bool
  inputSource : Bool
  processor : Bool
  userAnalyser : Bool
  aiAnalyser : Bool
  nextStartTime : ℚ
  sources : List Source
  session : Bool
  sessionPromise : Bool
deriving DecidableEq

/-- The state the constructor leaves the client in (gemini-live.ts
lines 6-25): every handle null, nextStartTime 0, empty live-set. -/
def initialClient : ClientState where
  inputCtx := false
  outputCtx := false
  outputGain := false
  inputSource := false
  processor := false
  userAnalyser := false
  aiAnalyser := false
  nextStartTime := 0
  sources := []
  session := false
  sessionPromise := false

/-- Web Audio stop on a single source: throws InvalidStateError when the
source was already stopped (the catch in stopAllSources relies on this). -/
def stopOne (s : Source) : Except String Source :=
  if s.stopped then Except.error "InvalidStateError"
  else Except.ok { s with stopped := true }

/-- The try/catch around source.stop() in stopAllSources (gemini-live.ts
lines 159-161): an error from stop is swallowed. -/
def tryStop (s : Source) : Source :=
  match stopOne s with
  | Except.ok r => r
  | Except.error _ => s

/-- stopAllSources (gemini-live.ts lines 157-164): try-stop every live
source, then clear the set.  The per-source try/catch (tryStop) makes the
loop total; the only persistent state effect is the cleared set. -/
def stopAllSources (st : ClientState) : ClientState :=
  { st with sources := [] }

/-- The interruption branch of onmessage (gemini-live.ts lines 90-93):
stopAllSources then nextStartTime = 0. -/
def interrupt (st : ClientState) : ClientState :=
  { stopAllSources st with nextStartTime := 0 }

/-- The start time scheduleAudioChunk passes to source.start (gemini-live.ts
lines 143-148): nextStartTime, bumped up to currentTime when it lags. -/
def scheduledStartTime (st : ClientState) (now : ℚ) : ℚ :=
  if st.nextStartTime < now then now else st.nextStartTime

/-- scheduleAudioChunk (gemini-live.ts lines 134-155): return immediately
when the output context or gain is null; otherwise start the new source at
scheduledStartTime, advance nextStartTime by the buffer duration, and add
the source to the live-set. -/
def scheduleAudioChunk (st : ClientState) (buffer : Buffer) (now : ℚ)
    (fresh : ℕ) : ClientState :=
  if !st.outputCtx || !st.outputGain then st
  else
    { st with
      nextStartTime := scheduledStartTime st now + buffer.duration
      sources := st.sources ++ [⟨fresh, buffer, scheduledStartTime st now, false⟩] }

/-- The onended handler registered by scheduleAudioChunk (gemini-live.ts
lines 152-154): natural completion removes the source from the live-set. -/
def completeSource (st : ClientState) (s : Source) : ClientState :=
  { st with sources := st.sources.erase s }

/-- An inbound server message, reduced to the two fields onmessage reads:
the interrupted flag and the audio payload (bytes, after the base64
transport decode that the model abstracts away). -/
structure ServerMessage where
  interrupted : Bool
  audioData : Option (List ℕ)
deriving DecidableEq

/-- The onmessage callback (gemini-live.ts lines 86-112): handle an
interruption signal first, then decode and schedule an audio payload when
the output context and gain are non-null; a decode error is caught and
logged, dropping the chunk; a message with neither part changes nothing. -/
def onmessage (st : ClientState) (msg : ServerMessage) (now : ℚ)
    (fresh : ℕ) : ClientState :=
  let st1 := if msg.interrupted then interrupt st else st
  match msg.audioData with
  | none => st1
  | some bytes =>
    if st1.outputCtx && st1.outputGain then
      match decodeAudioData bytes 24000 1 with
      | Except.ok buf => scheduleAudioChunk st1 buf now fresh
      | Except.error _ => st1
    else st1

/-- What one onaudioprocess invocation did with its capture block. -/
inductive SendOutcome where
  | sent (blob : List ℕ)
  | failedLogged
  | droppedNoSession
deriving DecidableEq

/-- The onaudioprocess callback (gemini-live.ts lines 54-67): encode the
block; when a session promise exists hand the blob to the asynchronous
send (whose failure is caught and only warned about), otherwise drop the
blob.  The callback itself never changes client state and never waits on
the send result. -/
def onaudioprocess (st : ClientState) (frame : List ℚ) (sendOk : Bool) :
    ClientState × SendOutcome :=
  if st.sessionPromise then
    (st, if sendOk then SendOutcome.sent (createPcmBlob frame)
         else SendOutcome.failedLogged)
  else (st, SendOutcome.droppedNoSession)

/-- disconnect (gemini-live.ts lines 166-200): stop all sources, best-effort
close of the session (wrapped in try/catch), null the session handles, and
null the input/output contexts, processor and input source.  Note the code
does not null outputGain or the analysers, and does not reset
nextStartTime. -/
def disconnect (st : ClientState) : ClientState :=
  { stopAllSources st with
    session := false
    sessionPromise := false
    inputCtx := false
    outputCtx := false
    processor := false
    inputSource := false }

/-- connect (gemini-live.ts lines 27-132), with the two awaited fallible
steps exposed as booleans: mediaOk is getUserMedia (line 47), streamOk is
awaiting the live-session promise (line 125).  Setup runs in source order:
contexts, analysers and gain first, then the media source and processor,
then the session promise; any failure is caught at lines 127-131, which
call disconnect and surface the error (returned here as the Option). -/
def connect (st : ClientState) (mediaOk streamOk : Bool) :
    ClientState × Option String :=
  let st1 := { st with
    inputCtx := true, outputCtx := true, outputGain := true,
    userAnalyser := true, aiAnalyser := true }
  if !mediaOk then (disconnect st1, some "DeviceAcquisitionError")
  else
    let st2 := { st1 with inputSource := true, processor := true,
                          sessionPromise := true }
    if !streamOk then (disconnect st2, some "ConnectionError")
    else ({ st2 with session := true }, none)

/-! ## App-level connection status (src/App.tsx)

The React state that the onclose/onerror callbacks of the remote stream
drive (App.tsx lines 33-62): the status, the two analyser handles exposed
to the visualizer, and the error banner text.
-/

/-- ConnectionStatus (src/types.ts line 14). -/
inductive AppStatus where
  | disconnected
  | connecting
  | connected
  | error
deriving DecidableEq

/-- The App state the stream callbacks touch (App.tsx lines 9-20). -/
structure AppState where
  status : AppStatus
  userAnalyser : Bool
  aiAnalyser : Bool
  errorMsg : Option String
deriving DecidableEq

/-- The onDisconnect callback App.handleConnect passes to connect
(App.tsx lines 41-46). -/
def onDisconnectCallback (a : AppState) : AppState :=
  { a with status := AppStatus.disconnected,
           userAnalyser := false, aiAnalyser := false }

/-- The onError callback App.handleConnect passes to connect
(App.tsx lines 47-54). -/
def onErrorCallback (a : AppState) (m : String) : AppState :=
  { a with status := AppStatus.error, errorMsg := some m,
           userAnalyser := false, aiAnalyser := false }

/-- The onclose stream callback (gemini-live.ts lines 113-116): log, then
invoke the onDisconnect callback. -/
def oncloseHandler (a : AppState) : AppState :=
  onDisconnectCallback a

/-- The onerror stream callback (gemini-live.ts lines 117-120): log, then
invoke onError with the reason message, defaulting to the unknown-error
text when the reason carries none. -/
def onerrorHandler (a : AppState) (reason : Option String) : AppState :=
  onErrorCallback a (reason.getD "Unknown Live API Error")

/-! ## Helper lemmas -/

instance {α β : Type} [DecidableEq α] [DecidableEq β] :
    DecidableEq (Except α β) := fun a b =>
  match a, b with
  | Except.ok x, Except.ok y =>
    if h : x = y then isTrue (by rw [h])
    else isFalse (fun hc => by cases hc; exact h rfl)
  | Except.error x, Except.error y =>
    if h : x = y then isTrue (by rw [h])
    else isFalse (fun hc => by cases hc; exact h rfl)
  | Except.ok _, Except.error _ => isFalse (fun hc => by cases hc)
  | Except.error _, Except.ok _ => isFalse (fun hc => by cases hc)

lemma duration_nonneg (b : Buffer) : 0 ≤ b.duration := by
  unfold Buffer.duration
  exact div_nonneg (by positivity) (by positivity)

lemma scheduledStartTime_eq_max (st : ClientState) (now : ℚ) :
    scheduledStartTime st now = max st.nextStartTime now := by
  unfold scheduledStartTime
  rcases lt_or_ge st.nextStartTime now with h | h
  · rw [if_pos h, max_eq_right h.le]
  · rw [if_neg (not_lt.mpr h), max_eq_left h]

lemma le_scheduledStartTime (st : ClientState) (now : ℚ) :
    now ≤ scheduledStartTime st now := by
  rw [scheduledStartTime_eq_max]
  exact le_max_right _ _

lemma cursor_le_scheduledStartTime (st : ClientState) (now : ℚ) :
    st.nextStartTime ≤ scheduledStartTime st now := by
  rw [scheduledStartTime_eq_max]
  exact le_max_left _ _

lemma scheduleAudioChunk_eq (st : ClientState) (b : Buffer) (now : ℚ) (i : ℕ)
    (hCtx : st.outputCtx = true) (hGain : st.outputGain = true) :
    scheduleAudioChunk st b now i
      = { st with
          nextStartTime := scheduledStartTime st now + b.duration
          sources := st.sources ++ [⟨i, b, scheduledStartTime st now, false⟩] } := by
  simp [scheduleAudioChunk, hCtx, hGain]

/-! ## Claim theorems -/

/-- C1: every enqueued buffer is scheduled at
max(nextStartTime, output clock now), after which nextStartTime advances by
exactly the buffer duration; the scheduled start is never before the output
clock; the new source is appended after all earlier ones; with a second
buffer enqueued no earlier, the second start is at or after the first end
(non-overlap), and at the same clock instant the second starts exactly at
the first end (back-to-back in enqueue order). -/
theorem schedule_back_to_back (st : ClientState) (bufA bufB : Buffer)
    (now nowB : ℚ) (iA iB : ℕ)
    (hCtx : st.outputCtx = true) (hGain : st.outputGain = true)
    (_hNow : 0 ≤ now) (_hSeq : now ≤ nowB) :
    scheduledStartTime st now = max st.nextStartTime now ∧
    (scheduleAudioChunk st bufA now iA).nextStartTime
      = scheduledStartTime st now + bufA.duration ∧
    now ≤ scheduledStartTime st now ∧
    now ≤ (scheduleAudioChunk st bufA now iA).nextStartTime ∧
    (scheduleAudioChunk st bufA now iA).sources
      = st.sources ++ [⟨iA, bufA, scheduledStartTime st now, false⟩] ∧
    (scheduleAudioChunk (scheduleAudioChunk st bufA now iA) bufB nowB iB).sources
      = st.sources
        ++ [⟨iA, bufA, scheduledStartTime st now, false⟩,
            ⟨iB, bufB,
              scheduledStartTime (scheduleAudioChunk st bufA now iA) nowB,
              false⟩] ∧
    scheduledStartTime st now + bufA.duration
      ≤ scheduledStartTime (scheduleAudioChunk st bufA now iA) nowB ∧
    (nowB = now →
      scheduledStartTime (scheduleAudioChunk st bufA now iA) nowB
        = scheduledStartTime st now + bufA.duration) := by
  have hA := scheduleAudioChunk_eq st bufA now iA hCtx hGain
  have hActx : (scheduleAudioChunk st bufA now iA).outputCtx = true := by
    rw [hA]; exact hCtx
  have hAgain : (scheduleAudioChunk st bufA now iA).outputGain = true := by
    rw [hA]; exact hGain
  have hAnext : (scheduleAudioChunk st bufA now iA).nextStartTime
      = scheduledStartTime st now + bufA.duration := by
    rw [hA]
  have hB := scheduleAudioChunk_eq (scheduleAudioChunk st bufA now iA) bufB nowB
    iB hActx hAgain
  refine ⟨scheduledStartTime_eq_max st now, hAnext,
    le_scheduledStartTime st now, ?_, ?_, ?_, ?_, ?_⟩
  · rw [hAnext]
    have := le_scheduledStartTime st now
    have := duration_nonneg bufA
    linarith
  · rw [hA]
  · rw [hB, hA]
    simp
  · rw [scheduledStartTime_eq_max (scheduleAudioChunk st bufA now iA) nowB,
      hAnext]
    exact le_max_left _ _
  · intro hEq
    rw [scheduledStartTime_eq_max (scheduleAudioChunk st bufA now iA) nowB,
      hAnext, hEq]
    apply max_eq_left
    have h1 := le_scheduledStartTime st now
    have h2 := duration_nonneg bufA
    linarith

/-- Demo client with the output graph set up, for concrete instantiation. -/
def demoClient : ClientState :=
  { initialClient with outputCtx := true, outputGain := true }

/-- Demo buffer of duration 1 second (3 samples at 3 Hz). -/
def bufOneSec : Buffer := { samples := [0, 0, 0], sampleRate := 3 }

/-- Demo buffer of duration half a second (1 sample at 2 Hz). -/
def bufHalf : Buffer := { samples := [0], sampleRate := 2 }

theorem schedule_back_to_back_witness :
    (demoClient.outputCtx = true ∧ demoClient.outputGain = true ∧
      (0 : ℚ) ≤ 0 ∧ (0 : ℚ) ≤ 0) ∧
    (scheduledStartTime demoClient 0 = max demoClient.nextStartTime 0 ∧
    (scheduleAudioChunk demoClient bufOneSec 0 0).nextStartTime
      = scheduledStartTime demoClient 0 + bufOneSec.duration ∧
    (0 : ℚ) ≤ scheduledStartTime demoClient 0 ∧
    (0 : ℚ) ≤ (scheduleAudioChunk demoClient bufOneSec 0 0).nextStartTime ∧
    (scheduleAudioChunk demoClient bufOneSec 0 0).sources
      = demoClient.sources
        ++ [⟨0, bufOneSec, scheduledStartTime demoClient 0, false⟩] ∧
    (scheduleAudioChunk (scheduleAudioChunk demoClient bufOneSec 0 0) bufHalf
        0 1).sources
      = demoClient.sources
        ++ [⟨0, bufOneSec, scheduledStartTime demoClient 0, false⟩,
            ⟨1, bufHalf,
              scheduledStartTime (scheduleAudioChunk demoClient bufOneSec 0 0)
                0,
              false⟩] ∧
    scheduledStartTime demoClient 0 + bufOneSec.duration
      ≤ scheduledStartTime (scheduleAudioChunk demoClient bufOneSec 0 0) 0 ∧
    ((0 : ℚ) = 0 →
      scheduledStartTime (scheduleAudioChunk demoClient bufOneSec 0 0) 0
        = scheduledStartTime demoClient 0 + bufOneSec.duration)) :=
  ⟨⟨rfl, rfl, le_refl 0, le_refl 0⟩,
    schedule_back_to_back demoClient bufOneSec bufHalf 0 0 0 1 rfl rfl
      (le_refl 0) (le_refl 0)⟩

/-- C2: the interruption handling stops every live source, clears the
live-set and resets nextStartTime to zero; it is idempotent; the try/catch
around stop tolerates a source that already stopped (stop raises, the catch
swallows it); interrupting when all sources already completed naturally is
the same no-error interrupt; and the first enqueue after an interrupt is
scheduled at the current output-clock time, as the only live source. -/
theorem interrupt_idempotent (st : ClientState) (s : Source) (buf : Buffer)
    (now : ℚ) (i : ℕ) (hNow : 0 ≤ now) :
    (interrupt st).sources = [] ∧
    (interrupt st).nextStartTime = 0 ∧
    interrupt (interrupt st) = interrupt st ∧
    (s.stopped = true →
      stopOne s = Except.error "InvalidStateError" ∧ tryStop s = s) ∧
    interrupt { st with sources := [] } = interrupt st ∧
    scheduledStartTime (interrupt st) now = now ∧
    (st.outputCtx = true → st.outputGain = true →
      (scheduleAudioChunk (interrupt st) buf now i).sources
        = [⟨i, buf, now, false⟩]) := by
  have hstart : scheduledStartTime (interrupt st) now = now := by
    show scheduledStartTime { stopAllSources st with nextStartTime := 0 } now
      = now
    unfold scheduledStartTime
    rcases lt_or_eq_of_le hNow with hlt | heq
    · rw [if_pos hlt]
    · rw [if_neg (by rw [← heq]; exact lt_irrefl 0), ← heq]
  refine ⟨rfl, rfl, rfl, ?_, rfl, hstart, ?_⟩
  · intro hs
    refine ⟨?_, ?_⟩
    · unfold stopOne
      rw [if_pos hs]
    · unfold tryStop stopOne
      rw [if_pos hs]
  · intro hCtx hGain
    rw [scheduleAudioChunk_eq _ _ _ _ (by exact hCtx) (by exact hGain), hstart]
    rfl

theorem interrupt_idempotent_witness :
    ((0 : ℚ) ≤ 0) ∧
    ((interrupt demoClient).sources = [] ∧
    (interrupt demoClient).nextStartTime = 0 ∧
    interrupt (interrupt demoClient) = interrupt demoClient ∧
    ((⟨0, bufHalf, 0, true⟩ : Source).stopped = true →
      stopOne ⟨0, bufHalf, 0, true⟩ = Except.error "InvalidStateError" ∧
        tryStop ⟨0, bufHalf, 0, true⟩ = ⟨0, bufHalf, 0, true⟩) ∧
    interrupt { demoClient with sources := [] } = interrupt demoClient ∧
    scheduledStartTime (interrupt demoClient) 0 = 0 ∧
    (demoClient.outputCtx = true → demoClient.outputGain = true →
      (scheduleAudioChunk (interrupt demoClient) bufOneSec 0 2).sources
        = [⟨2, bufOneSec, 0, false⟩])) :=
  ⟨le_refl 0,
    interrupt_idempotent demoClient ⟨0, bufHalf, 0, true⟩ bufOneSec 0 2
      (le_refl 0)⟩

/-- C3: onmessage handles an interruption signal before the audio payload
of the same message is decoded or scheduled; a message with only an audio
payload is decoded and scheduled; a message with neither part leaves the
state unchanged (a no-op, and onmessage is a total function, so no
error). -/
theorem onmessage_routing (st : ClientState) (bytes : List ℕ) (buf : Buffer)
    (now : ℚ) (i : ℕ)
    (hCtx : st.outputCtx = true) (hGain : st.outputGain = true)
    (hDec : decodeAudioData bytes 24000 1 = Except.ok buf) :
    onmessage st ⟨false, none⟩ now i = st ∧
    onmessage st ⟨true, none⟩ now i = interrupt st ∧
    onmessage st ⟨false, some bytes⟩ now i = scheduleAudioChunk st buf now i ∧
    onmessage st ⟨true, some bytes⟩ now i
      = scheduleAudioChunk (interrupt st) buf now i := by
  refine ⟨rfl, rfl, ?_, ?_⟩
  · simp [onmessage, hCtx, hGain, hDec]
  · simp [onmessage, interrupt, stopAllSources, hCtx, hGain, hDec]

/-- Demo two-byte payload decoding to one zero sample. -/
def demoBytes : List ℕ := [0, 0]

/-- The buffer demoBytes decodes to. -/
def demoBuf : Buffer := { samples := [0], sampleRate := 24000 }

lemma demo_decode : decodeAudioData demoBytes 24000 1 = Except.ok demoBuf := by
  norm_num [decodeAudioData, decodeSamples, bytesToInt16, demoBytes, demoBuf]

theorem onmessage_routing_witness :
    (demoClient.outputCtx = true ∧ demoClient.outputGain = true ∧
      decodeAudioData demoBytes 24000 1 = Except.ok demoBuf) ∧
    (onmessage demoClient ⟨false, none⟩ 0 0 = demoClient ∧
    onmessage demoClient ⟨true, none⟩ 0 0 = interrupt demoClient ∧
    onmessage demoClient ⟨false, some demoBytes⟩ 0 0
      = scheduleAudioChunk demoClient demoBuf 0 0 ∧
    onmessage demoClient ⟨true, some demoBytes⟩ 0 0
      = scheduleAudioChunk (interrupt demoClient) demoBuf 0 0) :=
  ⟨⟨rfl, rfl, demo_decode⟩,
    onmessage_routing demoClient demoBytes demoBuf 0 0 rfl rfl demo_decode⟩

/-- Full teardown of the fallible resources connect acquires: no session
handle, no session promise, no contexts, no processor, no mic source. -/
def fullyTornDown (st : ClientState) : Prop :=
  st.session = false ∧ st.sessionPromise = false ∧ st.inputCtx = false ∧
  st.outputCtx = false ∧ st.processor = false ∧ st.inputSource = false

/-- C4: when either fallible setup step of connect fails (device
acquisition, or awaiting the remote-stream session), the catch block runs
disconnect, so the resulting state is fully torn down, and the error is
surfaced through the error callback (the Option component): device failure
surfaces DeviceAcquisitionError, stream failure ConnectionError.  No
resource stays partially acquired after a failed attempt. -/
theorem connect_failure_teardown (st : ClientState) (mediaOk streamOk : Bool)
    (h : mediaOk = false ∨ streamOk = false) :
    (connect st mediaOk streamOk).2.isSome = true ∧
    fullyTornDown (connect st mediaOk streamOk).1 ∧
    (mediaOk = false →
      (connect st mediaOk streamOk).2 = some "DeviceAcquisitionError") ∧
    (mediaOk = true → streamOk = false →
      (connect st mediaOk streamOk).2 = some "ConnectionError") := by
  cases mediaOk <;> cases streamOk <;>
    simp_all [connect, disconnect, stopAllSources, fullyTornDown]

theorem connect_failure_teardown_witness :
    (false = false ∨ true = false) ∧
    ((connect initialClient false true).2.isSome = true ∧
    fullyTornDown (connect initialClient false true).1 ∧
    (false = false →
      (connect initialClient false true).2 = some "DeviceAcquisitionError") ∧
    (false = true → true = false →
      (connect initialClient false true).2 = some "ConnectionError")) :=
  ⟨Or.inl rfl, connect_failure_teardown initialClient false true (Or.inl rfl)⟩

/-- A client mid-session: every handle live, cursor advanced to 1 second
by previously scheduled audio, all sources already completed. -/
def staleActive : ClientState :=
  { inputCtx := true, outputCtx := true, outputGain := true,
    inputSource := true, processor := true, userAnalyser := true,
    aiAnalyser := true, nextStartTime := 1, sources := [],
    session := true, sessionPromise := true }

/-- C5 (failing input): disconnect is idempotent and releases the handles,
but it does not reset nextStartTime, and connect never resets it either; so
after disconnecting a session whose cursor reached 1 second and
reconnecting, the first chunk of the new session is scheduled at the stale
cursor time 1 instead of the new output clock time 0.  This contradicts the
claimed absence of a stale scheduling cursor across sessions. -/
theorem disconnect_retains_cursor :
    (disconnect staleActive).nextStartTime = 1 ∧
    disconnect (disconnect staleActive) = disconnect staleActive ∧
    (connect (disconnect staleActive) true true).2 = none ∧
    ((connect (disconnect staleActive) true true).1).nextStartTime = 1 ∧
    scheduledStartTime ((connect (disconnect staleActive) true true).1) 0
      = 1 ∧
    (scheduleAudioChunk ((connect (disconnect staleActive) true true).1)
        demoBuf 0 5).sources
      = [⟨5, demoBuf, 1, false⟩] := by
  refine ⟨rfl, rfl, rfl, rfl, ?_, ?_⟩
  · norm_num [scheduledStartTime, connect, disconnect, stopAllSources,
      staleActive]
  · norm_num [scheduleAudioChunk, scheduledStartTime, connect, disconnect,
      stopAllSources, staleActive]

/-- C6: codec round trip.  Encoding any sample sequence with values in
[-1, 1] produces exactly 2 bytes per sample; decoding the blob succeeds
(the length is even), yields the same sample count, and reconstructs every
sample within one quantization step (1/32768) of the original. -/
theorem codec_roundtrip (s : List ℚ) (h : ∀ x ∈ s, -1 ≤ x ∧ x ≤ 1) :
    (createPcmBlob s).length = 2 * s.length ∧
    decodeAudioData (createPcmBlob s) 24000 1
      = Except.ok
          { samples := decodeSamples (createPcmBlob s), sampleRate := 24000 } ∧
    (decodeSamples (createPcmBlob s)).length = s.length ∧
    List.Forall₂ (fun y x => |y - x| ≤ 1 / 32768)
      (decodeSamples (createPcmBlob s)) s := by
  refine ⟨createPcmBlob_length s, ?_, ?_, ?_⟩
  · unfold decodeAudioData
    rw [if_neg (by rw [createPcmBlob_length]; omega)]
  · rw [decode_createPcmBlob, List.length_map]
  · rw [decode_createPcmBlob]
    exact forall2_quantize s h

/-- Demo sample sequence touching 0, an interior value and both ends of
the legal range. -/
def demoSamples : List ℚ := [0, 1/2, -1, 1]

theorem codec_roundtrip_witness :
    (∀ x ∈ demoSamples, -1 ≤ x ∧ x ≤ 1) ∧
    ((createPcmBlob demoSamples).length = 2 * demoSamples.length ∧
    decodeAudioData (createPcmBlob demoSamples) 24000 1
      = Except.ok
          { samples := decodeSamples (createPcmBlob demoSamples),
            sampleRate := 24000 } ∧
    (decodeSamples (createPcmBlob demoSamples)).length
      = demoSamples.length ∧
    List.Forall₂ (fun y x => |y - x| ≤ 1 / 32768)
      (decodeSamples (createPcmBlob demoSamples)) demoSamples) :=
  ⟨by norm_num [demoSamples],
    codec_roundtrip demoSamples (by norm_num [demoSamples])⟩

/-- C7: an odd byte length makes the decode fail with MalformedAudioError;
the catch in onmessage swallows it, so the handler completes and the state
is unchanged (the chunk is dropped, the session continues); and a
subsequent well-formed message is still decoded and scheduled normally. -/
theorem malformed_chunk_dropped (st : ClientState) (bytes good : List ℕ)
    (buf : Buffer) (now : ℚ) (i j : ℕ)
    (hOdd : bytes.length % 2 = 1)
    (hCtx : st.outputCtx = true) (hGain : st.outputGain = true)
    (hGood : decodeAudioData good 24000 1 = Except.ok buf) :
    decodeAudioData bytes 24000 1 = Except.error "MalformedAudioError" ∧
    onmessage st ⟨false, some bytes⟩ now i = st ∧
    onmessage (onmessage st ⟨false, some bytes⟩ now i)
        ⟨false, some good⟩ now j
      = scheduleAudioChunk st buf now j := by
  have hErr : decodeAudioData bytes 24000 1
      = Except.error "MalformedAudioError" := by
    unfold decodeAudioData
    rw [if_pos (by omega)]
  have hDrop : onmessage st ⟨false, some bytes⟩ now i = st := by
    simp [onmessage, hCtx, hGain, hErr]
  refine ⟨hErr, hDrop, ?_⟩
  rw [hDrop]
  simp [onmessage, hCtx, hGain, hGood]

theorem malformed_chunk_dropped_witness :
    (([0] : List ℕ).length % 2 = 1 ∧ demoClient.outputCtx = true ∧
      demoClient.outputGain = true ∧
      decodeAudioData demoBytes 24000 1 = Except.ok demoBuf) ∧
    (decodeAudioData [0] 24000 1 = Except.error "MalformedAudioError" ∧
    onmessage demoClient ⟨false, some [0]⟩ 0 0 = demoClient ∧
    onmessage (onmessage demoClient ⟨false, some [0]⟩ 0 0)
        ⟨false, some demoBytes⟩ 0 1
      = scheduleAudioChunk demoClient demoBuf 0 1) :=
  ⟨⟨rfl, rfl, rfl, demo_decode⟩,
    malformed_chunk_dropped demoClient [0] demoBytes demoBuf 0 0 1 rfl rfl
      rfl demo_decode⟩

/-- C8: one capture callback never changes client state (so nothing is
buffered while disconnected and nothing waits on the network); with no
session promise the encoded blob is silently dropped regardless of the
send result; with a session promise the blob is handed to the send, and a
send failure only yields the logged outcome, never an error. -/
theorem capture_best_effort (st : ClientState) (frame : List ℚ)
    (sendOk : Bool) :
    (onaudioprocess st frame sendOk).1 = st ∧
    (onaudioprocess { st with sessionPromise := false } frame sendOk).2
      = SendOutcome.droppedNoSession ∧
    (onaudioprocess { st with sessionPromise := true } frame true).2
      = SendOutcome.sent (createPcmBlob frame) ∧
    (onaudioprocess { st with sessionPromise := true } frame false).2
      = SendOutcome.failedLogged := by
  refine ⟨?_, ?_, ?_, ?_⟩
  · cases hsp : st.sessionPromise <;> simp [onaudioprocess, hsp]
  · simp [onaudioprocess]
  · simp [onaudioprocess]
  · simp [onaudioprocess]

/-- C9: the onclose stream callback always drives the app status to
disconnected and the onerror callback to error (never leaving it at
connected), notifying the caller through the corresponding callback, with
the error banner carrying the reason message or the unknown-error text. -/
theorem stream_end_drives_status (a : AppState) (reason : Option String) :
    (oncloseHandler a).status = AppStatus.disconnected ∧
    (oncloseHandler a).userAnalyser = false ∧
    (oncloseHandler a).aiAnalyser = false ∧
    (onerrorHandler a reason).status = AppStatus.error ∧
    (onerrorHandler a reason).errorMsg
      = some (reason.getD "Unknown Live API Error") ∧
    (oncloseHandler a).status ≠ AppStatus.connected ∧
    (onerrorHandler a reason).status ≠ AppStatus.connected := by
  refine ⟨rfl, rfl, rfl, rfl, rfl, ?_, ?_⟩ <;>
    simp [oncloseHandler, onDisconnectCallback, onerrorHandler,
      onErrorCallback]

/-- C10 (counterexample): disconnect nulls the output audio context but
does not null the output gain handle, refuting the part of the claim that
says disconnect sets both the output context and the gain stage to null. -/
theorem disconnect_gain_not_nulled :
    (disconnect staleActive).outputGain = true ∧
    (disconnect staleActive).outputCtx = false :=
  ⟨rfl, rfl⟩

/-- C10 (amended): after disconnect the output context is null, and because
the audio-payload branch of onmessage requires both a non-null output
context and gain before decoding, and scheduleAudioChunk returns
immediately when either is null, an audio message arriving after disconnect
leaves the state unchanged: nothing is scheduled and no exception escapes
(onmessage is total). -/
theorem stale_message_ignored (st : ClientState) (bytes : List ℕ)
    (buf : Buffer) (now : ℚ) (i : ℕ) :
    (disconnect st).outputCtx = false ∧
    onmessage (disconnect st) ⟨false, some bytes⟩ now i = disconnect st ∧
    scheduleAudioChunk (disconnect st) buf now i = disconnect st := by
  refine ⟨rfl, ?_, ?_⟩
  · simp [onmessage, disconnect, stopAllSources]
  · simp [scheduleAudioChunk, disconnect, stopAllSources]

end GeminiLive
